import Mathlib

/-!
Verification of the discord-emoji-react-bot pipeline (src/emoji_bot.py).

The embedding is shallow: Python strings become Lean strings manipulated via
their character lists, optional values become Option, exceptions become
Except, and the two network collaborators (the HTTP fetcher and the LLM
completion endpoint) become explicit function parameters, so that every
definition is executable.
-/

/-- A character-list prefix test, modelling Python str.startswith. -/
def listStartsWith : List Char → List Char → Bool
  | _, [] => true
  | [], _ :: _ => false
  | a :: as, b :: bs => a == b && listStartsWith as bs

/-- Python str.startswith on whole strings. -/
def pyStartsWith (s pre : String) : Bool :=
  listStartsWith s.data pre.data

/-- Python str.strip(): remove leading and trailing whitespace. -/
def pyStrip (s : String) : String :=
  ⟨((s.data.dropWhile Char.isWhitespace).reverse.dropWhile Char.isWhitespace).reverse⟩

/-- Python str.upper(), character by character. -/
def pyUpper (s : String) : String :=
  ⟨s.data.map Char.toUpper⟩

/-- The base64 alphabet. -/
def b64Alphabet : List Char :=
  ( "ABCDEFGHIJKLMNOPQRSTUVWXYZabcdefghijklmnopqrstuvwxyz0123456789+/").data

/-- The base64 digit for a 6-bit value. -/
def b64Char (n : Nat) : Char :=
  b64Alphabet.getD n 'A'

/-- Standard base64 encoding of a byte list (modelling base64.b64encode
followed by utf-8 decoding, as in the source). -/
def b64encode : List Nat → String
  | [] => ""
  | [b1] =>
      ⟨[b64Char (b1 / 4), b64Char (b1 % 4 * 16), '=', '=']⟩
  | [b1, b2] =>
      ⟨[b64Char (b1 / 4), b64Char (b1 % 4 * 16 + b2 / 16), b64Char (b2 % 16 * 4), '=']⟩
  | b1 :: b2 :: b3 :: rest =>
      String.mk [b64Char (b1 / 4), b64Char (b1 % 4 * 16 + b2 / 16),
        b64Char (b2 % 16 * 4 + b3 / 64), b64Char (b3 % 64)] ++ b64encode rest

/-- Python str(x) on an optional string: None prints as "None". -/
def pyStrOpt : Option String → String
  | some s => s
  | none => "None"

/-- Discord message types relevant to the filter (everything that is neither
default nor reply is a system message). -/
inductive MessageType where
  | default
  | reply
  | system
deriving DecidableEq

/-- An attachment descriptor: URL, optional declared content-type, filename
(discord.Attachment fields used by the bot). -/
structure Attachment where
  url : String
  content_type : Option String
  filename : String
deriving DecidableEq

/-- The snapshot of a discord.Message used by the pipeline. -/
structure Message where
  content : String
  attachments : List Attachment
  embeds : List String
  author_bot : Bool
  mtype : MessageType
deriving DecidableEq

/-- An httpx response: status code and body bytes. -/
structure HttpResponse where
  status_code : Nat
  content : List Nat
deriving DecidableEq

/-- The outcome of one httpx GET: an exception, or a response. -/
def Fetcher : Type :=
  String → Except String HttpResponse

/-- One part of a multimodal OpenAI message: a text part or an image-URL
part (the dict literals built in prepare_message_content). -/
inductive ContentPart where
  | text (t : String)
  | image_url (url : String)
deriving DecidableEq

/-- The return value of prepare_message_content: a bare string, or a list of
content parts. -/
inductive PreparedContent where
  | str (s : String)
  | parts (ps : List ContentPart)
deriving DecidableEq

/-- The attachment filter of prepare_message_content, line 157-158:
att.content_type and att.content_type.startswith("image").  Python
truthiness makes both None and the empty string fail the first conjunct. -/
def isImageAttachment (att : Attachment) : Bool :=
  match att.content_type with
  | none => false
  | some ct => !(ct == "") && pyStartsWith ct "image"

/-- image_attachments, line 157-158: the attachments declaring an image
content-type, in order. -/
def image_attachments (m : Message) : List Attachment :=
  m.attachments.filter isImageAttachment

/-- The attachments the bot actually downloads, lines 156-164: nothing
unless vision is supported and the attachment list is non-empty; then the
first 3 image attachments. -/
def attempted_fetches (supports_vision : Bool) (m : Message) : List Attachment :=
  if supports_vision && !m.attachments.isEmpty then
    (image_attachments m).take 3
  else []

/-- The image part built from a successful download, lines 168-174: a data
URI from the declared content-type and the base64-encoded body. -/
def data_uri_part (att : Attachment) (resp : HttpResponse) : ContentPart :=
  .image_url ( "data:" ++ pyStrOpt att.content_type ++ ";base64," ++
    b64encode resp.content)

/-- The body of the download loop, lines 165-177: fetch one attachment and
build its image part; an exception or a non-200 status yields no part. -/
def fetch_image_part (fetch : Fetcher) (att : Attachment) : Option ContentPart :=
  match fetch att.url with
  | .error _ => none
  | .ok resp =>
      if resp.status_code == 200 then some (data_uri_part att resp)
      else none

/-- The image parts produced by the download loop, in attachment order. -/
def image_parts (supports_vision : Bool) (fetch : Fetcher) (m : Message) : List ContentPart :=
  (attempted_fetches supports_vision m).filterMap (fetch_image_part fetch)

/-- The text part, lines 152-153: present iff the stripped content is
non-empty. -/
def text_parts (m : Message) : List ContentPart :=
  if pyStrip m.content == "" then [] else [.text (pyStrip m.content)]

/-- content_parts before the fallback, lines 149-177: text part first, then
image parts. -/
def raw_content_parts (supports_vision : Bool) (fetch : Fetcher) (m : Message) :
    List ContentPart :=
  text_parts m ++ image_parts supports_vision fetch m

/-- content_parts after the fallback, lines 179-184: if nothing was added,
one fallback text part, "[embed content]" when embeds are present, else
"[message]". -/
def final_content_parts (supports_vision : Bool) (fetch : Fetcher) (m : Message) :
    List ContentPart :=
  let cp := raw_content_parts supports_vision fetch m
  if cp.isEmpty then
    [.text (if m.embeds.isEmpty then "[message]" else "[embed content]")]
  else cp

/-- prepare_message_content, lines 147-187: collapse a single text part to a
bare string, otherwise return the part list. -/
def prepare_message_content (supports_vision : Bool) (fetch : Fetcher) (m : Message) :
    PreparedContent :=
  match final_content_parts supports_vision fetch m with
  | [.text t] => .str t
  | ps => .parts ps

/-- Tests whether a content part is an image part. -/
def isImagePart : ContentPart → Bool
  | .text _ => false
  | .image_url _ => true

/-- The number of image parts a PreparedContent carries. -/
def countImageParts : PreparedContent → Nat
  | .str _ => 0
  | .parts ps => (ps.filter isImagePart).length

/-- A role-tagged chat message sent to the LLM. -/
structure ChatMessage where
  role : String
  content : String
deriving DecidableEq

/-- The outcome of one LLM chat completion: an exception, or the reply
text of the first choice.  Passed in explicitly so the pipeline stays
executable. -/
def Completer : Type :=
  List ChatMessage → Except String String

/-- The fixed tone-classification system prompt, lines 195-216. -/
def tone_check_prompt : String :=
  "You are a tone classifier for emoji reactions. Determine if the message tone is appropriate for adding emoji reactions.\n\nRESPOND WITH ONLY: YES or NO\n\nAppropriate for emoji reactions:\n- Casual conversation, jokes, memes\n- Sharing content with context/enthusiasm\n- Questions, discussions, observations\n- Positive, neutral, or lighthearted content\n- Social media style posts\n\nNOT appropriate for emoji reactions:\n- Solo links without context or commentary\n- Minimal content with ambiguous intent\n- Serious discussions about sensitive topics\n- Arguments, conflicts, heated debates\n- Personal problems, venting, emotional distress\n- Bad news, emergencies, urgent matters\n- Professional/formal communications\n- Messages asking for help with serious issues\n\nMessage to classify:"

/-- The user content of the tone check, line 193: the stripped text, or the
placeholder when it is empty (Python or on a falsy string). -/
def tone_content (m : Message) : String :=
  if pyStrip m.content == "" then "[image/media content]" else pyStrip m.content

/-- The request is_tone_appropriate sends, lines 218-226. -/
def tone_request (m : Message) : List ChatMessage :=
  [⟨ "system", tone_check_prompt⟩, ⟨ "user", tone_content m⟩]

/-- is_tone_appropriate, lines 189-237: on a successful call the reply is
stripped, uppercased and tested for the prefix YES; any exception inside the
try block is caught and the stage returns true. -/
def is_tone_appropriate (complete : Completer) (m : Message) : Bool :=
  match complete (tone_request m) with
  | .error _ => true
  | .ok reply => pyStartsWith (pyUpper (pyStrip reply)) "YES"

/-- extract_emoji, lines 239-246: None for a falsy input, else the first
character of the stripped text, or None when the stripped text is empty. -/
def extract_emoji (text : String) : Option String :=
  if text == "" then none
  else
    match (pyStrip text).data with
    | [] => none
    | c :: _ => some ⟨[c]⟩

/-- The exception kinds the reaction call can raise, matching the except
clauses of add_reaction, lines 253-262.  The constructor other stands for
every exception not covered by a specific discord error class. -/
inductive DiscordException where
  | forbidden (msg : String)
  | notFound (msg : String)
  | invalidArgument (msg : String)
  | httpException (msg : String)
  | other (msg : String)
deriving DecidableEq

/-- add_reaction, lines 248-262, in the exception monad: the awaited
platform call either returns or raises one of the exception kinds; each
except clause turns the exception into a log line and a normal return.
The result is the log line the function emits. -/
def add_reaction (outcome : Except DiscordException Unit)
    (channel_name author emoji : String) : Except DiscordException String :=
  match outcome with
  | .ok _ =>
      .ok ( "Added reaction " ++ emoji ++ " to message from " ++ author)
  | .error (.forbidden _) =>
      .ok ( "Missing permissions to add reactions in #" ++ channel_name)
  | .error (.notFound _) =>
      .ok ( "Emoji " ++ emoji ++ " not found or message deleted")
  | .error (.invalidArgument _) =>
      .ok ( "Invalid emoji format: " ++ emoji)
  | .error (.httpException e) =>
      .ok ( "Failed to add reaction " ++ emoji ++ ": " ++ e)
  | .error (.other e) =>
      .ok ( "Unexpected error adding reaction: " ++ e)

/-- should_ignore_message, lines 65-81 of src/emoji_bot.py (the permissive
filter variant that is present in src/): bot authors, fully empty messages
and system messages are ignored; true means ignore. -/
def should_ignore_message (ignore_bots : Bool) (m : Message) : Bool :=
  if ignore_bots && m.author_bot then true
  else if pyStrip m.content == "" && m.embeds.isEmpty && m.attachments.isEmpty then true
  else if !(m.mtype == MessageType.default || m.mtype == MessageType.reply) then true
  else false

/-- The configuration toggles the Admission Filter reads. -/
structure FilterConfig where
  ignore_bots : Bool
  ignore_links_only : Bool
deriving DecidableEq

/-- True on a character list whose head begins a URL-like substring
(https?:// or www.). -/
def isUrlStart (l : List Char) : Bool :=
  listStartsWith l ( "http://").data || listStartsWith l ( "https://").data ||
    listStartsWith l ( "www.").data

/-- Modelled from the spec: one pass of URL stripping over the characters,
removing each maximal non-whitespace run that starts with https?:// or
www. and recording whether any URL was seen.  Fuel-indexed so the
definition is structural; the fuel is the character count. -/
def stripUrlsAux : Nat → List Char → List Char × Bool
  | 0, l => (l, false)
  | _, [] => ([], false)
  | fuel + 1, c :: cs =>
      if isUrlStart (c :: cs) then
        let rest := cs.dropWhile (fun ch => !ch.isWhitespace)
        let r := stripUrlsAux fuel rest
        (r.1, true)
      else
        let r := stripUrlsAux fuel cs
        (c :: r.1, r.2)

/-- Modelled from the spec: strip all URL-like substrings from a string,
returning the remaining characters and whether a URL was present. -/
def stripUrls (s : String) : List Char × Bool :=
  stripUrlsAux s.data.length s.data

/-- Modelled from the spec: Admission Filter rule 3 (the strict filter
variant is not present under src/; src/emoji_bot.py keeps only rules 1, 2
and 5).  A trimmed text is links-only when, after stripping URL-like
substrings, fewer than 3 characters remain and at least one URL was
present. -/
def linksOnly (content : String) : Bool :=
  let r := stripUrls content
  r.1.length < 3 && r.2

/-- Modelled from the spec: Admission Filter rule 4 (missing from src/).
A trimmed text is mention-only when removing the mention syntax characters
and digits leaves an empty trimmed residue while the text itself was
non-empty. -/
def mentionOnly (content : String) : Bool :=
  let residue := content.data.filter
    (fun c => !(c == '<' || c == '@' || c == '>' || c == '!' || c == '#' || c == '&' ||
      c.isDigit))
  (pyStrip ⟨residue⟩ == "") && !(content == "")

/-- Modelled from the spec: the unified Admission Filter shouldProcess of
spec section 4.1, rules 1-5 in order; the strict variant implementing rules
3 and 4 is part of the repository but not present under src/.  True means
the message is eligible, false means ignore. -/
def shouldProcess (cfg : FilterConfig) (m : Message) : Bool :=
  let content := pyStrip m.content
  if cfg.ignore_bots && m.author_bot then false
  else if content == "" && m.embeds.isEmpty && m.attachments.isEmpty then false
  else if cfg.ignore_links_only && linksOnly content then false
  else if mentionOnly content then false
  else if !(m.mtype == MessageType.default || m.mtype == MessageType.reply) then false
  else true

/-- C1: with ignore_links_only enabled the Admission Filter ignores a
message whose entire trimmed text is a single URL: for "https://example.com"
(no embeds, no attachments, non-bot author, default type) shouldProcess
returns ignore (false), while for "nice! https://example.com" it does not
ignore. -/
theorem admission_filter_ignores_pure_link :
    shouldProcess ⟨true, true⟩
        ⟨ "https://example.com", [], [], false, MessageType.default⟩ = false ∧
    shouldProcess ⟨true, true⟩
        ⟨ "nice! https://example.com", [], [], false, MessageType.default⟩ = true := by
  decide

/-- C2: the Admission Filter ignores a mention-only message: whatever the
config toggles, the embeds and the attachments, a non-bot default-type
message whose entire text is a mention is ignored. -/
theorem admission_filter_ignores_mention_only (ib il : Bool)
    (atts : List Attachment) (emb : List String) :
    shouldProcess ⟨ib, il⟩ ⟨ "<@123456789>", atts, emb, false, MessageType.default⟩ =
      false := by
  have hc : (pyStrip "<@123456789>" == "") = false := by decide
  have hl : linksOnly (pyStrip "<@123456789>") = false := by decide
  have hm : mentionOnly (pyStrip "<@123456789>") = true := by decide
  cases ib <;> cases il <;>
    simp [shouldProcess, hc, hl, hm]

/-- C3: the Tone Classifier fails open: when the completion call raises,
is_tone_appropriate returns true, and when it succeeds the result is true
exactly when the stripped, uppercased reply starts with YES. -/
theorem tone_classifier_fails_open (complete : Completer) (m : Message) :
    (∀ e, complete (tone_request m) = .error e → is_tone_appropriate complete m = true) ∧
    (∀ r, complete (tone_request m) = .ok r →
      is_tone_appropriate complete m = pyStartsWith (pyUpper (pyStrip r)) "YES") := by
  constructor
  · intro e he
    simp [is_tone_appropriate, he]
  · intro r hr
    simp [is_tone_appropriate, hr]

theorem tone_classifier_fails_open_witness :
    is_tone_appropriate (fun _ => .error "boom") ⟨ "hi", [], [], false, .default⟩ = true ∧
    is_tone_appropriate (fun _ => .ok " yes!") ⟨ "hi", [], [], false, .default⟩ = true := by
  constructor
  · exact (tone_classifier_fails_open (fun _ => .error "boom") _).1 "boom" rfl
  · rw [(tone_classifier_fails_open (fun _ => .ok " yes!") _).2 " yes!" rfl]
    decide

/-- C4: the Reaction Dispatcher never raises past its boundary: whatever
the outcome of the platform call (success, permission denied, not found,
malformed emoji, generic platform error, or any other exception),
add_reaction returns normally with a log line. -/
theorem add_reaction_never_raises (outcome : Except DiscordException Unit)
    (channel_name author emoji : String) :
    ∃ log, add_reaction outcome channel_name author emoji = .ok log := by
  cases outcome with
  | ok u => exact ⟨_, rfl⟩
  | error e => cases e <;> exact ⟨_, rfl⟩

/-- C7: the Emoji Extractor returns none on every reply whose stripped text
is empty, and on every other reply it returns exactly the first character
of the stripped reply, with no further validation. -/
theorem extract_emoji_first_char (text : String) :
    (pyStrip text = "" → extract_emoji text = none) ∧
    (∀ c cs, (pyStrip text).data = c :: cs → extract_emoji text = some ⟨[c]⟩) := by
  constructor
  · intro h
    unfold extract_emoji
    by_cases he : text = ""
    · simp [he]
    · simp [he, h]
  · intro c cs h
    unfold extract_emoji
    have he : (text == "") = false := by
      cases hb : text == "" with
      | true =>
          exfalso
          have : text = "" := eq_of_beq hb
          rw [this] at h
          simp [pyStrip] at h
      | false => rfl
    rw [he]
    simp [h]

theorem extract_emoji_first_char_witness :
    extract_emoji "   " = none ∧ extract_emoji " ab " = some "a" :=
  ⟨(extract_emoji_first_char "   ").1 (by decide),
   (extract_emoji_first_char " ab ").2 'a' ['b'] (by decide)⟩

/-- Unfolding equation for final_content_parts. -/
theorem final_content_parts_eq (v : Bool) (f : Fetcher) (m : Message) :
    final_content_parts v f m =
      if (raw_content_parts v f m).isEmpty then
        [ContentPart.text (if m.embeds.isEmpty then "[message]" else "[embed content]")]
      else raw_content_parts v f m := rfl

/-- Every part the download loop produces is an image part. -/
theorem isImagePart_of_mem_image_parts {v : Bool} {f : Fetcher} {m : Message}
    {p : ContentPart} (hp : p ∈ image_parts v f m) : isImagePart p = true := by
  obtain ⟨a, -, ha⟩ := List.mem_filterMap.mp hp
  unfold fetch_image_part at ha
  split at ha
  · exact absurd ha (by simp)
  · split at ha
    · cases ha
      rfl
    · exact absurd ha (by simp)

/-- The text part list contains no image part. -/
theorem filter_isImagePart_text_parts (m : Message) :
    (text_parts m).filter isImagePart = [] := by
  unfold text_parts
  split <;> rfl

/-- Filtering the final part list for image parts yields exactly the parts
the download loop produced. -/
theorem filter_isImagePart_final (v : Bool) (f : Fetcher) (m : Message) :
    (final_content_parts v f m).filter isImagePart = image_parts v f m := by
  rw [final_content_parts_eq]
  cases hb : (raw_content_parts v f m).isEmpty with
  | true =>
      have hraw : raw_content_parts v f m = [] := List.isEmpty_iff.mp hb
      have himg : image_parts v f m = [] := (List.append_eq_nil.mp hraw).2
      rw [himg]
      simp [isImagePart]
  | false =>
      simp only [Bool.false_eq_true, if_false]
      unfold raw_content_parts
      rw [List.filter_append, filter_isImagePart_text_parts,
        List.filter_eq_self.mpr (fun p hp => isImagePart_of_mem_image_parts hp)]
      simp

/-- The final part list is never empty. -/
theorem final_content_parts_ne_nil (v : Bool) (f : Fetcher) (m : Message) :
    final_content_parts v f m ≠ [] := by
  rw [final_content_parts_eq]
  cases hb : (raw_content_parts v f m).isEmpty with
  | true => simp
  | false =>
      simp only [Bool.false_eq_true, if_false]
      intro hc
      rw [hc] at hb
      simp at hb

/-- The list of attempted downloads is a sublist of the attachment list. -/
theorem attempted_fetches_sublist (v : Bool) (m : Message) :
    (attempted_fetches v m).Sublist m.attachments := by
  unfold attempted_fetches
  split
  · exact (List.take_sublist 3 (image_attachments m)).trans (List.filter_sublist _)
  · exact List.nil_sublist _

/-- C6: the Content Preparer fetches at most 3 images: whatever the vision
flag, the fetcher and the message, at most 3 downloads are attempted and
the prepared content carries at most 3 image parts. -/
theorem prepare_fetches_at_most_three (v : Bool) (f : Fetcher) (m : Message) :
    (attempted_fetches v m).length ≤ 3 ∧
    countImageParts (prepare_message_content v f m) ≤ 3 := by
  have h1 : (attempted_fetches v m).length ≤ 3 := by
    unfold attempted_fetches
    split
    · exact List.length_take_le 3 _
    · simp
  have h2 : (image_parts v f m).length ≤ 3 :=
    le_trans (List.length_filterMap_le _ _) h1
  refine ⟨h1, ?_⟩
  unfold prepare_message_content
  split
  · simp [countImageParts]
  · simp only [countImageParts]
    rw [filter_isImagePart_final]
    exact h2

/-- Every text part in the final part list carries a non-empty string. -/
theorem text_mem_final_ne_empty (v : Bool) (f : Fetcher) (m : Message) (s : String)
    (hs : ContentPart.text s ∈ final_content_parts v f m) : s ≠ "" := by
  rw [final_content_parts_eq] at hs
  cases hb : (raw_content_parts v f m).isEmpty with
  | true =>
      rw [hb] at hs
      simp only [if_true] at hs
      rw [List.mem_singleton] at hs
      injection hs with h
      subst h
      split <;> decide
  | false =>
      rw [hb] at hs
      simp only [Bool.false_eq_true, if_false] at hs
      rcases List.mem_append.mp hs with h | h
      · unfold text_parts at h
        cases hg : (pyStrip m.content == "") with
        | true =>
            rw [hg] at h
            simp at h
        | false =>
            rw [hg] at h
            simp only [Bool.false_eq_true, if_false] at h
            rw [List.mem_singleton] at h
            injection h with h2
            subst h2
            exact beq_eq_false_iff_ne.mp hg
      · have := isImagePart_of_mem_image_parts h
        simp [isImagePart] at this

/-- Case analysis of the collapse step: either the final list is a single
text part and a bare string is returned, or the part list is returned as
is. -/
theorem prepare_eq_cases (v : Bool) (f : Fetcher) (m : Message) :
    (∃ t, final_content_parts v f m = [ContentPart.text t] ∧
      prepare_message_content v f m = PreparedContent.str t) ∨
    ((∀ t, final_content_parts v f m ≠ [ContentPart.text t]) ∧
      prepare_message_content v f m =
        PreparedContent.parts (final_content_parts v f m)) := by
  have hp : prepare_message_content v f m =
      match final_content_parts v f m with
      | [ContentPart.text t] => PreparedContent.str t
      | ps => PreparedContent.parts ps := rfl
  rcases hfin : final_content_parts v f m with _ | ⟨p, rest⟩
  · right
    refine ⟨?_, ?_⟩
    · intro t hc
      exact List.noConfusion hc
    · rw [hp, hfin]
  · cases p with
    | text t =>
        cases rest with
        | nil =>
            left
            exact ⟨t, rfl, by rw [hp, hfin]⟩
        | cons q qs =>
            right
            refine ⟨?_, by rw [hp, hfin]⟩
            intro t' hc
            simp at hc
    | image_url u =>
        right
        refine ⟨?_, by rw [hp, hfin]⟩
        intro t' hc
        simp at hc

/-- C8: PreparedContent is never empty and collapses correctly: the final
part list is non-empty; a bare string is returned exactly when the final
list is a single text part - in both directions: a bare string forces the
final list to be that single (non-empty) text part, and a single-text-part
final list forces the bare-string collapse; a returned part list is the
non-empty final list; and when no part was produced the fallback text part
is emitted ("[embed content]" with embeds, else "[message]"). -/
theorem prepared_content_nonempty_and_collapse (v : Bool) (f : Fetcher) (m : Message) :
    final_content_parts v f m ≠ [] ∧
    (∀ s, prepare_message_content v f m = PreparedContent.str s →
      final_content_parts v f m = [ContentPart.text s] ∧ s ≠ "") ∧
    (∀ t, final_content_parts v f m = [ContentPart.text t] →
      prepare_message_content v f m = PreparedContent.str t) ∧
    (∀ ps, prepare_message_content v f m = PreparedContent.parts ps →
      ps = final_content_parts v f m ∧ ps ≠ []) ∧
    (raw_content_parts v f m = [] →
      final_content_parts v f m =
        [ContentPart.text (if m.embeds.isEmpty then "[message]" else "[embed content]")]) := by
  refine ⟨final_content_parts_ne_nil v f m, ?_, ?_, ?_, ?_⟩
  · intro s hs
    rcases prepare_eq_cases v f m with ⟨t, hfin, hp⟩ | ⟨hne, hp⟩
    · rw [hp] at hs
      injection hs with h
      subst h
      refine ⟨hfin, text_mem_final_ne_empty v f m t ?_⟩
      rw [hfin]
      exact List.mem_singleton.mpr rfl
    · rw [hp] at hs
      exact absurd hs (by simp)
  · intro t ht
    unfold prepare_message_content
    rw [ht]
  · intro ps hps
    rcases prepare_eq_cases v f m with ⟨t, hfin, hp⟩ | ⟨hne, hp⟩
    · rw [hp] at hps
      exact absurd hps (by simp)
    · rw [hp] at hps
      injection hps with h
      subst h
      exact ⟨rfl, final_content_parts_ne_nil v f m⟩
  · intro hraw
    rw [final_content_parts_eq, hraw]
    rfl

theorem prepared_content_nonempty_and_collapse_witness :
    final_content_parts false (fun _ => .error "net") ⟨ "", [], [], false, .default⟩ ≠ [] ∧
    (final_content_parts false (fun _ => .error "net") ⟨ "", [], [], false, .default⟩ =
      [ContentPart.text "[message]"] ∧ ( "[message]" : String) ≠ "") ∧
    prepare_message_content false (fun _ => .error "net") ⟨ "", [], [], false, .default⟩ =
      PreparedContent.str "[message]" := by
  have h := prepared_content_nonempty_and_collapse false (fun _ => .error "net")
    ⟨ "", [], [], false, .default⟩
  exact ⟨h.1, h.2.1 "[message]" (by decide), h.2.2.1 "[message]" (by decide)⟩

/-- C9: part ordering: when the trimmed text is non-empty the text part
heads the final part list, and the image parts are the downloads of a
sublist of the attachment list, taken in order. -/
theorem prepared_content_part_order (v : Bool) (f : Fetcher) (m : Message) :
    (pyStrip m.content ≠ "" →
      (final_content_parts v f m).head? = some (ContentPart.text (pyStrip m.content))) ∧
    (∃ sub : List Attachment, sub.Sublist m.attachments ∧
      (final_content_parts v f m).filter isImagePart =
        sub.filterMap (fetch_image_part f)) := by
  constructor
  · intro h
    have hg : (pyStrip m.content == "") = false := beq_eq_false_iff_ne.mpr h
    have htp : text_parts m = [ContentPart.text (pyStrip m.content)] := by
      unfold text_parts
      rw [hg]
      rfl
    have hraw : raw_content_parts v f m =
        ContentPart.text (pyStrip m.content) :: image_parts v f m := by
      unfold raw_content_parts
      rw [htp]
      rfl
    rw [final_content_parts_eq, hraw]
    rfl
  · refine ⟨attempted_fetches v m, attempted_fetches_sublist v m, ?_⟩
    rw [filter_isImagePart_final]
    rfl

theorem prepared_content_part_order_witness :
    (final_content_parts false (fun _ => .error "net")
        ⟨ " hi ", [], [], false, .default⟩).head? = some (ContentPart.text "hi") := by
  have h := (prepared_content_part_order false (fun _ => .error "net")
    ⟨ " hi ", [], [], false, .default⟩).1 (by decide)
  rw [h]
  decide

/-- C10: attachments with a missing content-type are excluded: every
attempted download declares an image content-type, every image part comes
from an attempted download, and an attachment with no content-type is never
downloaded. -/
theorem missing_content_type_excluded (v : Bool) (f : Fetcher) (m : Message) :
    (∀ a, a ∈ attempted_fetches v m →
      ∃ s, a.content_type = some s ∧ pyStartsWith s "image" = true) ∧
    (∀ p, p ∈ image_parts v f m →
      ∃ a, a ∈ attempted_fetches v m ∧ fetch_image_part f a = some p) ∧
    (∀ a, a.content_type = none → a ∉ attempted_fetches v m) := by
  have h1 : ∀ a, a ∈ attempted_fetches v m →
      ∃ s, a.content_type = some s ∧ pyStartsWith s "image" = true := by
    intro a ha
    have hmem : a ∈ image_attachments m := by
      unfold attempted_fetches at ha
      split at ha
      · exact List.mem_of_mem_take ha
      · exact absurd ha (List.not_mem_nil a)
    have himg : isImageAttachment a = true := (List.mem_filter.mp hmem).2
    unfold isImageAttachment at himg
    cases hct : a.content_type with
    | none =>
        rw [hct] at himg
        exact absurd himg (by simp)
    | some ct =>
        rw [hct] at himg
        refine ⟨ct, rfl, ?_⟩
        simp only [Bool.and_eq_true] at himg
        exact himg.2
  refine ⟨h1, ?_, ?_⟩
  · intro p hp
    obtain ⟨a, hmem, ha⟩ := List.mem_filterMap.mp hp
    exact ⟨a, hmem, ha⟩
  · intro a hct hmem
    obtain ⟨s, hs, -⟩ := h1 a hmem
    rw [hct] at hs
    exact Option.noConfusion hs

theorem missing_content_type_excluded_witness :
    (⟨ "u0", none, "f.bin"⟩ : Attachment) ∉
      attempted_fetches true
        ⟨ "x", [⟨ "u0", none, "f.bin"⟩, ⟨ "u1", some "image/png", "a.png"⟩],
          [], false, .default⟩ :=
  (missing_content_type_excluded true (fun _ => .error "net") _).2.2 _ rfl

/-- C5: one failing image does not abort content preparation: with vision
enabled and exactly two image attachments, the first failing (exception or
non-200 status) and the second succeeding with status 200, the prepared
content is the part list made of the text part (when text is present) and
the succeeding image's data-URI part; the failing attachment contributes
nothing. -/
theorem prepare_partial_image_failure (f : Fetcher) (m : Message)
    (a1 a2 : Attachment) (r2 : HttpResponse)
    (hatts : m.attachments = [a1, a2])
    (h1 : isImageAttachment a1 = true)
    (h2 : isImageAttachment a2 = true)
    (hfail : (∃ e, f a1.url = .error e) ∨ ∃ r, f a1.url = .ok r ∧ r.status_code ≠ 200)
    (hok : f a2.url = .ok r2) (h200 : r2.status_code = 200) :
    prepare_message_content true f m =
      PreparedContent.parts (text_parts m ++ [data_uri_part a2 r2]) := by
  have hno : fetch_image_part f a1 = none := by
    rcases hfail with ⟨e, he⟩ | ⟨r, hr, hs⟩
    · simp [fetch_image_part, he]
    · have : (r.status_code == 200) = false := by
        simpa using hs
      simp [fetch_image_part, hr, this]
  have hpart : fetch_image_part f a2 = some (data_uri_part a2 r2) := by
    have : (r2.status_code == 200) = true := by
      simpa using h200
    simp [fetch_image_part, hok, this]
  have himgatt : image_attachments m = [a1, a2] := by
    unfold image_attachments
    rw [hatts]
    simp [List.filter_cons, h1, h2]
  have hatt3 : attempted_fetches true m = [a1, a2] := by
    unfold attempted_fetches
    rw [hatts, himgatt]
    simp
  have himg : image_parts true f m = [data_uri_part a2 r2] := by
    unfold image_parts
    rw [hatt3]
    simp [List.filterMap_cons, hno, hpart]
  rcases prepare_eq_cases true f m with ⟨t, hfin, hp⟩ | ⟨hne, hp⟩
  · exfalso
    have hflt := filter_isImagePart_final true f m
    rw [hfin, himg] at hflt
    simp [isImagePart] at hflt
  · rw [hp]
    congr 1
    rw [final_content_parts_eq]
    have hraw : raw_content_parts true f m = text_parts m ++ [data_uri_part a2 r2] := by
      unfold raw_content_parts
      rw [himg]
    rw [hraw]
    have hne2 : (text_parts m ++ [data_uri_part a2 r2]).isEmpty = false := by
      cases text_parts m <;> rfl
    rw [hne2]
    rfl

theorem prepare_partial_image_failure_witness :
    prepare_message_content true
      (fun u => if u == "u1" then .error "timeout" else .ok ⟨200, [1, 2, 3]⟩)
      ⟨ "look", [⟨ "u1", some "image/png", "a.png"⟩, ⟨ "u2", some "image/jpeg", "b.jpg"⟩],
        [], false, .default⟩ =
      PreparedContent.parts
        [ContentPart.text "look", ContentPart.image_url "data:image/jpeg;base64,AQID"] := by
  have h := prepare_partial_image_failure
    (fun u => if u == "u1" then .error "timeout" else .ok ⟨200, [1, 2, 3]⟩)
    ⟨ "look", [⟨ "u1", some "image/png", "a.png"⟩, ⟨ "u2", some "image/jpeg", "b.jpg"⟩],
      [], false, .default⟩
    ⟨ "u1", some "image/png", "a.png"⟩ ⟨ "u2", some "image/jpeg", "b.jpg"⟩
    ⟨200, [1, 2, 3]⟩ rfl (by decide) (by decide)
    (Or.inl ⟨ "timeout", rfl⟩) rfl rfl
  rw [h]
  decide
